import Mathlib

/-!
Verification of the conference-central query-filter validator and composer
(`_format_filters` / `_get_query` in `conference.py`), together with the
registration (`_conference_registration`) and wishlist
(`add_session_to_wishlist` / `delete_session_in_wishlist`) operations.

The Python source is shallowly embedded: dictionaries become total functions
to `Option`, raised exceptions become `Except.error` values, and the datastore
entities touched by an operation are passed in and returned explicitly.
-/

set_option autoImplicit false

deriving instance DecidableEq for Except

namespace ConferenceCentral

/-- A raw client-supplied filter: field token, operator token, value string
(the `ConferenceQueryForm` message). -/
structure Filter where
  field : String
  operator : String
  value : String
  deriving DecidableEq, Repr

/-- A filter after token mapping by `_format_filters`: mapped field name,
mapped operator symbol, still-unparsed value string. -/
structure FormattedFilter where
  field : String
  operator : String
  value : String
  deriving DecidableEq, Repr

/-- The error outcomes of `_get_query`:
`invalidFilter` is `BadRequestException("Filter contains invalid field or operator.")`,
`multipleInequality` is `BadRequestException("Inequality filter is allowed on only one field.")`,
`valueError` is the `ValueError` raised by Python's `int()` on a non-numeric
string, which the source does not catch. -/
inductive QueryError where
  | invalidFilter
  | multipleInequality
  | valueError
  deriving DecidableEq, Repr

/-- The `OPERATORS` dictionary of `conference.py`: operator token to symbol;
a missing key (Python `KeyError`) is `none`. -/
def OPERATORS (s : String) : Option String :=
  if s = "EQ" then some "="
  else if s = "GT" then some ">"
  else if s = "GTEQ" then some ">="
  else if s = "LT" then some "<"
  else if s = "LTEQ" then some "<="
  else if s = "NE" then some "!="
  else none

/-- The `FIELDS` dictionary of `conference.py`: field token to datastore
property name; a missing key (Python `KeyError`) is `none`. -/
def FIELDS (s : String) : Option String :=
  if s = "CITY" then some "city"
  else if s = "TOPIC" then some "topics"
  else if s = "MONTH" then some "month"
  else if s = "MAX_ATTENDEES" then some "maxAttendees"
  else none

/-- The loop of `_format_filters`, with the running `inequality_field`
variable made explicit.  For each filter: map both tokens (a `KeyError`
raises the invalid-filter rejection); a non-`"="` operator on a second
distinct field raises the multiple-inequality rejection, otherwise it
(re)sets `inequality_field`; the formatted filter is appended. -/
def formatFiltersFrom : Option String → List Filter →
    Except QueryError (Option String × List FormattedFilter)
  | ineq, [] => Except.ok (ineq, [])
  | ineq, f :: rest =>
    match FIELDS f.field, OPERATORS f.operator with
    | some fld, some op =>
      if op = "=" then
        (formatFiltersFrom ineq rest).map
          (fun r => (r.1, FormattedFilter.mk fld op f.value :: r.2))
      else
        match ineq with
        | some g =>
          if g = fld then
            (formatFiltersFrom (some fld) rest).map
              (fun r => (r.1, FormattedFilter.mk fld op f.value :: r.2))
          else Except.error QueryError.multipleInequality
        | none =>
          (formatFiltersFrom (some fld) rest).map
            (fun r => (r.1, FormattedFilter.mk fld op f.value :: r.2))
    | _, _ => Except.error QueryError.invalidFilter

/-- The whole of `_format_filters`: starts with `inequality_field = None`, returns the
final inequality field and the formatted filters in input order. -/
def formatFilters (fs : List Filter) :
    Except QueryError (Option String × List FormattedFilter) :=
  formatFiltersFrom none fs

/-- Decimal value of a digit list, most significant first. -/
def digitsToNat : Nat → List Char → Nat
  | acc, [] => acc
  | acc, c :: cs => digitsToNat (10 * acc + (c.toNat - 48)) cs

/-- A non-empty all-digit character list parsed to its value, `none` otherwise. -/
def parseDigits (cs : List Char) : Option Nat :=
  if cs ≠ [] ∧ cs.all Char.isDigit then some (digitsToNat 0 cs) else none

/-- Python `int(s)` on a string (success or `ValueError`): surrounding
whitespace is ignored, then an optional sign followed by one or more
digits. -/
def pyInt (s : String) : Option Int :=
  let t := ((s.data.dropWhile Char.isWhitespace).reverse.dropWhile Char.isWhitespace).reverse
  match t with
  | '-' :: ds => (parseDigits ds).map (fun n => -(n : Int))
  | '+' :: ds => (parseDigits ds).map (fun n => (n : Int))
  | ds => (parseDigits ds).map (fun n => (n : Int))

/-- A query predicate value: either the raw string or the integer produced
by the `int()` coercion for the numeric fields. -/
inductive FilterValue where
  | str : String → FilterValue
  | int : Int → FilterValue
  deriving DecidableEq, Repr

/-- A predicate node, `ndb.query.FilterNode(field, operator, value)`. -/
structure FilterNode where
  field : String
  operator : String
  value : FilterValue
  deriving DecidableEq, Repr

/-- The query built by `_get_query`: the sort-key names in order
(`query.order` calls) and the conjunctive filter nodes in order
(`query.filter` calls). -/
structure Query where
  orders : List String
  nodes : List FilterNode
  deriving DecidableEq, Repr

/-- The filter loop of `_get_query`: for the fields `"month"` and
`"maxAttendees"` the value is coerced with `int()` (an unparsable value
raises `ValueError`); every filter becomes a `FilterNode` in order. -/
def coerceValues : List FormattedFilter → Except QueryError (List FilterNode)
  | [] => Except.ok []
  | f :: rest =>
    if f.field = "month" ∨ f.field = "maxAttendees" then
      match pyInt f.value with
      | some n =>
        (coerceValues rest).map (fun l => FilterNode.mk f.field f.operator (FilterValue.int n) :: l)
      | none => Except.error QueryError.valueError
    else
      (coerceValues rest).map (fun l => FilterNode.mk f.field f.operator (FilterValue.str f.value) :: l)

/-- The whole of `_get_query`: format the filters, sort on the inequality field first when
one exists and on `Conference.name` second (only on `name` otherwise), then
apply every filter as a conjunctive predicate in input order. -/
def getQuery (fs : List Filter) : Except QueryError Query :=
  match formatFilters fs with
  | Except.error e => Except.error e
  | Except.ok (ineq, fmtd) =>
    let orders :=
      match ineq with
      | none => ["name"]
      | some fld => [fld, "name"]
    (coerceValues fmtd).map (fun nodes => Query.mk orders nodes)

/-- The mapped field name of a filter (meaningful when the token is valid). -/
def mField (f : Filter) : String := (FIELDS f.field).getD ""

/-- The mapped operator symbol of a filter (meaningful when the token is valid). -/
def mOp (f : Filter) : String := (OPERATORS f.operator).getD ""

/-- Both tokens of the filter are in the fixed enumerations. -/
def validTok (f : Filter) : Prop :=
  (FIELDS f.field).isSome ∧ (OPERATORS f.operator).isSome

instance (f : Filter) : Decidable (validTok f) :=
  inferInstanceAs (Decidable ((FIELDS f.field).isSome ∧ (OPERATORS f.operator).isSome))

/-- The formatted filter produced from a valid-token raw filter. -/
def fmtFilter (f : Filter) : FormattedFilter :=
  FormattedFilter.mk (mField f) (mOp f) f.value

/-- The filter carries a non-equality operator. -/
def isIneq (f : Filter) : Bool := decide (mOp f ≠ "=")

/-- The filter carries a non-equality operator on a field other than `g`. -/
def conflictsWith (g : String) (f : Filter) : Bool :=
  isIneq f && decide (mField f ≠ g)

/-- The `FilterNode` built by the `_get_query` loop from one formatted
filter: for the numeric fields the value is the integer produced by
`int()` (meaningful when the coercion succeeds), otherwise the raw
string. -/
def coerceFilter (f : FormattedFilter) : FilterNode :=
  if f.field = "month" ∨ f.field = "maxAttendees" then
    FilterNode.mk f.field f.operator (FilterValue.int ((pyInt f.value).getD 0))
  else FilterNode.mk f.field f.operator (FilterValue.str f.value)

/-- The two `Profile` repeated key properties touched by registration
(`conferenceKeysToAttend`) and the wishlist (`sessionsKeysWishlist`). -/
structure Profile where
  conferenceKeysToAttend : List String
  sessionsKeysWishlist : List String
  deriving DecidableEq, Repr

/-- The `Conference` seat counter (`seatsAvailable`, an ndb
IntegerProperty). -/
structure Conference where
  seatsAvailable : Int
  deriving DecidableEq, Repr

/-- `ConflictException` and `endpoints.NotFoundException` as raised by the
registration and wishlist endpoints. -/
inductive ApiError where
  | conflict
  | notFound
  deriving DecidableEq, Repr

/-- The `_conference_registration` method: the conference resolved from
`websafeConferenceKey` is `none` when the key matches nothing
(`NotFoundException`).  Registering with the key already in
`conferenceKeysToAttend`, or with no seat available, raises
`ConflictException`; a raised exception aborts the cross-group transaction,
leaving both entities unchanged.  Otherwise the key is appended and one seat
taken (registration), or the key removed and one seat restored
(unregistration, `True`), or nothing changes (`False`); the updated profile
and conference are written back by the two `put()` calls. -/
def conferenceRegistration (profile : Profile) (conference : Option Conference)
    (wsck : String) (reg : Bool) : Except ApiError (Profile × Conference × Bool) :=
  match conference with
  | none => Except.error ApiError.notFound
  | some conference =>
    if reg then
      if wsck ∈ profile.conferenceKeysToAttend then Except.error ApiError.conflict
      else if conference.seatsAvailable ≤ 0 then Except.error ApiError.conflict
      else
        Except.ok
          (Profile.mk (profile.conferenceKeysToAttend ++ [wsck]) profile.sessionsKeysWishlist,
           Conference.mk (conference.seatsAvailable - 1), true)
    else
      if wsck ∈ profile.conferenceKeysToAttend then
        Except.ok
          (Profile.mk (profile.conferenceKeysToAttend.erase wsck) profile.sessionsKeysWishlist,
           Conference.mk (conference.seatsAvailable + 1), true)
      else Except.ok (profile, conference, false)

/-- The `addSessionToWishlist` endpoint: `sessions` is the set of session keys that
resolve in the datastore; an unresolvable key raises `NotFoundException`, a
key already in the wishlist raises `ConflictException`, otherwise the key is
appended and the profile written back. -/
def addSessionToWishlist (sessions : List String) (profile : Profile)
    (sessionKey : String) : Except ApiError (Profile × Bool) :=
  if sessionKey ∉ sessions then Except.error ApiError.notFound
  else if sessionKey ∈ profile.sessionsKeysWishlist then Except.error ApiError.conflict
  else
    Except.ok (Profile.mk profile.conferenceKeysToAttend
      (profile.sessionsKeysWishlist ++ [sessionKey]), true)

/-- The `deleteSessionInWishlist` endpoint: an unresolvable key raises
`NotFoundException`; a key absent from the wishlist returns `False` with the
profile untouched; otherwise `list.remove` drops the first occurrence and
the profile is written back with `True`. -/
def deleteSessionInWishlist (sessions : List String) (profile : Profile)
    (sessionKey : String) : Except ApiError (Profile × Bool) :=
  if sessionKey ∉ sessions then Except.error ApiError.notFound
  else if sessionKey ∉ profile.sessionsKeysWishlist then Except.ok (profile, false)
  else
    Except.ok (Profile.mk profile.conferenceKeysToAttend
      (profile.sessionsKeysWishlist.erase sessionKey), true)

theorem validTok_some (f : Filter) (h : validTok f) :
    FIELDS f.field = some (mField f) ∧ OPERATORS f.operator = some (mOp f) := by
  obtain ⟨h1, h2⟩ := h
  obtain ⟨a, ha⟩ := Option.isSome_iff_exists.mp h1
  obtain ⟨b, hb⟩ := Option.isSome_iff_exists.mp h2
  refine ⟨?_, ?_⟩
  · rw [ha, mField, ha]; rfl
  · rw [hb, mOp, hb]; rfl

theorem formatFiltersFrom_cons_valid (st : Option String) (f : Filter)
    (rest : List Filter) (h : validTok f) :
    formatFiltersFrom st (f :: rest) =
      if mOp f = "=" then
        (formatFiltersFrom st rest).map (fun r => (r.1, fmtFilter f :: r.2))
      else
        match st with
        | some g =>
          if g = mField f then
            (formatFiltersFrom (some (mField f)) rest).map
              (fun r => (r.1, fmtFilter f :: r.2))
          else Except.error QueryError.multipleInequality
        | none =>
          (formatFiltersFrom (some (mField f)) rest).map
            (fun r => (r.1, fmtFilter f :: r.2)) := by
  obtain ⟨hf, ho⟩ := validTok_some f h
  simp only [formatFiltersFrom, hf, ho, fmtFilter]

theorem formatFiltersFrom_cons_invalid (st : Option String) (f : Filter)
    (rest : List Filter) (h : FIELDS f.field = none ∨ OPERATORS f.operator = none) :
    formatFiltersFrom st (f :: rest) = Except.error QueryError.invalidFilter := by
  rcases h with h | h
  · cases ho : OPERATORS f.operator <;> simp only [formatFiltersFrom, h, ho]
  · cases hf : FIELDS f.field <;> simp only [formatFiltersFrom, h, hf]

/-- With the inequality field already set to `g`, the loop fails with the
multiple-inequality rejection exactly when some remaining filter carries a
non-equality operator on a field other than `g`; otherwise it succeeds with
`g` unchanged. -/
theorem formatFiltersFrom_some_eq (g : String) (fs : List Filter)
    (hv : ∀ f ∈ fs, validTok f) :
    formatFiltersFrom (some g) fs =
      if fs.any (conflictsWith g) then Except.error QueryError.multipleInequality
      else Except.ok (some g, fs.map fmtFilter) := by
  induction fs with
  | nil => simp [formatFiltersFrom]
  | cons f rest ih =>
    have hvf : validTok f := hv f (List.mem_cons_self f rest)
    have hrest := ih (fun x hx => hv x (List.mem_cons_of_mem _ hx))
    rw [formatFiltersFrom_cons_valid (some g) f rest hvf, List.any_cons]
    by_cases hop : mOp f = "="
    · have hc : conflictsWith g f = false := by
        simp [conflictsWith, isIneq, hop]
      rw [if_pos hop, hrest, hc, Bool.false_or]
      by_cases ha : rest.any (conflictsWith g)
      · rw [if_pos ha, if_pos ha]; rfl
      · rw [if_neg ha, if_neg ha]; rfl
    · rw [if_neg hop]
      by_cases hfld : g = mField f
      · have hc : conflictsWith g f = false := by
          simp [conflictsWith, hfld.symm]
        rw [hc, Bool.false_or]
        simp only [← hfld, hrest]
        by_cases ha : rest.any (conflictsWith g)
        · rw [if_pos ha, if_pos ha]; rfl
        · rw [if_neg ha, if_neg ha]; rfl
      · have hc : conflictsWith g f = true := by
          have hne : mField f ≠ g := fun h => hfld h.symm
          simp [conflictsWith, isIneq, hop, hne]
        rw [hc, Bool.true_or, if_pos rfl]
        simp [hfld]

theorem formatFiltersFrom_cons_eqop (st : Option String) (f : Filter)
    (rest : List Filter) (h : validTok f) (hop : mOp f = "=") :
    formatFiltersFrom st (f :: rest) =
      (formatFiltersFrom st rest).map (fun r => (r.1, fmtFilter f :: r.2)) := by
  rw [formatFiltersFrom_cons_valid st f rest h, if_pos hop]

theorem formatFiltersFrom_cons_ineq_none (f : Filter) (rest : List Filter)
    (h : validTok f) (hop : mOp f ≠ "=") :
    formatFiltersFrom none (f :: rest) =
      (formatFiltersFrom (some (mField f)) rest).map
        (fun r => (r.1, fmtFilter f :: r.2)) := by
  rw [formatFiltersFrom_cons_valid none f rest h, if_neg hop]

theorem formatFiltersFrom_cons_ineq_same (g : String) (f : Filter)
    (rest : List Filter) (h : validTok f) (hop : mOp f ≠ "=") (hg : g = mField f) :
    formatFiltersFrom (some g) (f :: rest) =
      (formatFiltersFrom (some (mField f)) rest).map
        (fun r => (r.1, fmtFilter f :: r.2)) := by
  rw [formatFiltersFrom_cons_valid (some g) f rest h, if_neg hop]
  show (if g = mField f then _ else Except.error QueryError.multipleInequality) = _
  rw [if_pos hg]

theorem formatFiltersFrom_cons_ineq_diff (g : String) (f : Filter)
    (rest : List Filter) (h : validTok f) (hop : mOp f ≠ "=") (hg : g ≠ mField f) :
    formatFiltersFrom (some g) (f :: rest) =
      Except.error QueryError.multipleInequality := by
  rw [formatFiltersFrom_cons_valid (some g) f rest h, if_neg hop]
  show (if g = mField f then _ else Except.error QueryError.multipleInequality) = _
  rw [if_neg hg]

/-- Full characterization of `_format_filters` on valid-token input: the
first filter with a non-equality operator (if any) designates the inequality
field; the loop rejects exactly when some filter carries a non-equality
operator on a different field, and otherwise returns the formatted filters
in input order. -/
theorem formatFilters_eq (fs : List Filter) (hv : ∀ f ∈ fs, validTok f) :
    formatFilters fs =
      match fs.find? isIneq with
      | none => Except.ok (none, fs.map fmtFilter)
      | some f0 =>
        if fs.any (conflictsWith (mField f0)) then
          Except.error QueryError.multipleInequality
        else Except.ok (some (mField f0), fs.map fmtFilter) := by
  show formatFiltersFrom none fs = _
  induction fs with
  | nil => rfl
  | cons f rest ih =>
    have hvf : validTok f := hv f (List.mem_cons_self f rest)
    have hv' : ∀ x ∈ rest, validTok x := fun x hx => hv x (List.mem_cons_of_mem _ hx)
    have hrest := ih hv'
    rw [formatFiltersFrom_cons_valid none f rest hvf]
    by_cases hop : mOp f = "="
    · have hι : isIneq f = false := by simp [isIneq, hop]
      rw [if_pos hop, hrest, List.find?_cons_of_neg _ (by simp [hι])]
      cases hfind : rest.find? isIneq with
      | none => rfl
      | some f0 =>
        have hc : conflictsWith (mField f0) f = false := by
          simp [conflictsWith, hι]
        simp only [List.any_cons, hc, Bool.false_or]
        by_cases ha : rest.any (conflictsWith (mField f0))
        · rw [if_pos ha, if_pos ha]; rfl
        · rw [if_neg ha, if_neg ha]; rfl
    · have hι : isIneq f = true := by simp [isIneq, hop]
      rw [if_neg hop]
      show (formatFiltersFrom (some (mField f)) rest).map
          (fun r => (r.1, fmtFilter f :: r.2)) = _
      rw [formatFiltersFrom_some_eq (mField f) rest hv',
        List.find?_cons_of_pos _ hι]
      have hc : conflictsWith (mField f) f = false := by
        simp [conflictsWith]
      simp only [List.any_cons, hc, Bool.false_or]
      by_cases ha : rest.any (conflictsWith (mField f))
      · rw [if_pos ha, if_pos ha]; rfl
      · rw [if_neg ha, if_neg ha]; rfl

theorem formatFilters_find_none (fs : List Filter) (hv : ∀ f ∈ fs, validTok f)
    (hfind : fs.find? isIneq = none) :
    formatFilters fs = Except.ok (none, fs.map fmtFilter) := by
  rw [formatFilters_eq fs hv, hfind]

theorem formatFilters_find_some_conflict (fs : List Filter)
    (hv : ∀ f ∈ fs, validTok f) (f0 : Filter) (hfind : fs.find? isIneq = some f0)
    (ha : fs.any (conflictsWith (mField f0)) = true) :
    formatFilters fs = Except.error QueryError.multipleInequality := by
  rw [formatFilters_eq fs hv, hfind]
  show (if fs.any (conflictsWith (mField f0)) = true then
      Except.error QueryError.multipleInequality
    else Except.ok (some (mField f0), fs.map fmtFilter)) = _
  rw [if_pos ha]

theorem formatFilters_find_some_ok (fs : List Filter)
    (hv : ∀ f ∈ fs, validTok f) (f0 : Filter) (hfind : fs.find? isIneq = some f0)
    (ha : ¬ (fs.any (conflictsWith (mField f0)) = true)) :
    formatFilters fs = Except.ok (some (mField f0), fs.map fmtFilter) := by
  rw [formatFilters_eq fs hv, hfind]
  show (if fs.any (conflictsWith (mField f0)) = true then
      Except.error QueryError.multipleInequality
    else Except.ok (some (mField f0), fs.map fmtFilter)) = _
  rw [if_neg ha]

/-- C1: for valid-token filter sequences, validation fails with the
multiple-inequality rejection exactly when two filters with different mapped
fields both carry a non-`"="` operator (an order-independent condition);
otherwise it succeeds and the designated inequality field is the mapped field
of the first filter whose operator is not `"="` (absent when every operator
is `"="`). -/
theorem c1_single_inequality_field (fs : List Filter)
    (hv : ∀ f ∈ fs, validTok f) :
    (formatFilters fs = Except.error QueryError.multipleInequality ↔
      ∃ f ∈ fs, ∃ g ∈ fs, mOp f ≠ "=" ∧ mOp g ≠ "=" ∧ mField f ≠ mField g) ∧
    (formatFilters fs ≠ Except.error QueryError.multipleInequality →
      formatFilters fs =
        Except.ok ((fs.find? isIneq).map mField, fs.map fmtFilter)) := by
  cases hfind : fs.find? isIneq with
  | none =>
    have hall : ∀ x ∈ fs, ¬ (isIneq x = true) := List.find?_eq_none.mp hfind
    have hok := formatFilters_find_none fs hv hfind
    rw [hok]
    refine ⟨⟨fun h => absurd h (by simp), ?_⟩, fun _ => rfl⟩
    rintro ⟨f, hf, g, hg, hopf, hopg, hne⟩
    exact absurd hopf (by have := hall f hf; simpa [isIneq] using this)
  | some f0 =>
    have hf0mem : f0 ∈ fs := List.mem_of_find?_eq_some hfind
    have hf0op : mOp f0 ≠ "=" := by
      have := List.find?_some hfind
      simpa [isIneq] using this
    by_cases ha : fs.any (conflictsWith (mField f0))
    · have herr := formatFilters_find_some_conflict fs hv f0 hfind ha
      rw [herr]
      obtain ⟨x, hx, hcx⟩ := List.any_eq_true.mp ha
      rw [conflictsWith, Bool.and_eq_true] at hcx
      have hxop : mOp x ≠ "=" := by simpa [isIneq] using hcx.1
      have hxne : mField x ≠ mField f0 := by simpa using hcx.2
      exact ⟨⟨fun _ => ⟨x, hx, f0, hf0mem, hxop, hf0op, hxne⟩, fun _ => rfl⟩,
        fun h => absurd rfl h⟩
    · have hok := formatFilters_find_some_ok fs hv f0 hfind ha
      rw [hok]
      have hnoconf : ∀ x ∈ fs, ¬ (conflictsWith (mField f0) x = true) := by
        intro x hx hc
        exact ha (List.any_eq_true.mpr ⟨x, hx, hc⟩)
      refine ⟨⟨fun h => absurd h (by simp), ?_⟩, fun _ => rfl⟩
      rintro ⟨f, hf, g, hg, hopf, hopg, hne⟩
      by_cases hffld : mField f = mField f0
      · have hgne : mField g ≠ mField f0 := by
          rw [← hffld]
          exact fun h => hne h.symm
        exact (hnoconf g hg (by simp [conflictsWith, isIneq, hopg, hgne])).elim
      · exact (hnoconf f hf (by simp [conflictsWith, isIneq, hopf, hffld])).elim

theorem c1_witness :
    (∀ f ∈ [Filter.mk "CITY" "GT" "a", Filter.mk "TOPIC" "LT" "z"], validTok f) ∧
    ((formatFilters [Filter.mk "CITY" "GT" "a", Filter.mk "TOPIC" "LT" "z"] =
        Except.error QueryError.multipleInequality ↔
      ∃ f ∈ [Filter.mk "CITY" "GT" "a", Filter.mk "TOPIC" "LT" "z"],
        ∃ g ∈ [Filter.mk "CITY" "GT" "a", Filter.mk "TOPIC" "LT" "z"],
          mOp f ≠ "=" ∧ mOp g ≠ "=" ∧ mField f ≠ mField g) ∧
    (formatFilters [Filter.mk "CITY" "GT" "a", Filter.mk "TOPIC" "LT" "z"] ≠
        Except.error QueryError.multipleInequality →
      formatFilters [Filter.mk "CITY" "GT" "a", Filter.mk "TOPIC" "LT" "z"] =
        Except.ok
          (([Filter.mk "CITY" "GT" "a", Filter.mk "TOPIC" "LT" "z"].find? isIneq).map mField,
           [Filter.mk "CITY" "GT" "a", Filter.mk "TOPIC" "LT" "z"].map fmtFilter))) :=
  ⟨by decide, c1_single_inequality_field _ (by decide)⟩

/-- C5: the worked example from the specification: `[MONTH EQ "6",
MAX_ATTENDEES GT "10"]` validates with inequality field `maxAttendees`,
sort keys `[maxAttendees, name]`, and predicates `[month = 6,
maxAttendees > 10]` in order. -/
theorem c5_example_plan :
    formatFilters [Filter.mk "MONTH" "EQ" "6", Filter.mk "MAX_ATTENDEES" "GT" "10"] =
      Except.ok (some "maxAttendees",
        [FormattedFilter.mk "month" "=" "6",
         FormattedFilter.mk "maxAttendees" ">" "10"]) ∧
    getQuery [Filter.mk "MONTH" "EQ" "6", Filter.mk "MAX_ATTENDEES" "GT" "10"] =
      Except.ok (Query.mk ["maxAttendees", "name"]
        [FilterNode.mk "month" "=" (FilterValue.int 6),
         FilterNode.mk "maxAttendees" ">" (FilterValue.int 10)]) :=
  ⟨by decide, by decide⟩

/-- C6: when every operator token is `EQ` (and the field tokens are valid),
validation succeeds, no inequality field is designated, and every filter
becomes an equality predicate in input order. -/
theorem c6_equality_only (fs : List Filter)
    (hfld : ∀ f ∈ fs, (FIELDS f.field).isSome)
    (hop : ∀ f ∈ fs, f.operator = "EQ") :
    formatFilters fs =
      Except.ok (none, fs.map (fun f => FormattedFilter.mk (mField f) "=" f.value)) := by
  have hv : ∀ f ∈ fs, validTok f := by
    intro f hf
    refine ⟨hfld f hf, ?_⟩
    rw [hop f hf]
    rfl
  have hops : ∀ f ∈ fs, mOp f = "=" := by
    intro f hf
    rw [mOp, hop f hf]
    rfl
  rw [formatFilters_eq fs hv]
  have hfind : fs.find? isIneq = none := by
    rw [List.find?_eq_none]
    intro x hx
    simp [isIneq, hops x hx]
  rw [hfind]
  have hmap : fs.map fmtFilter =
      fs.map (fun f => FormattedFilter.mk (mField f) "=" f.value) :=
    List.map_congr_left (fun f hf => by rw [fmtFilter, hops f hf])
  simp [hmap]

theorem c6_witness :
    (∀ f ∈ [Filter.mk "CITY" "EQ" "London", Filter.mk "TOPIC" "EQ" "Web"],
      (FIELDS f.field).isSome) ∧
    (∀ f ∈ [Filter.mk "CITY" "EQ" "London", Filter.mk "TOPIC" "EQ" "Web"],
      f.operator = "EQ") ∧
    formatFilters [Filter.mk "CITY" "EQ" "London", Filter.mk "TOPIC" "EQ" "Web"] =
      Except.ok (none,
        [Filter.mk "CITY" "EQ" "London", Filter.mk "TOPIC" "EQ" "Web"].map
          (fun f => FormattedFilter.mk (mField f) "=" f.value)) :=
  ⟨by decide, by decide, c6_equality_only _ (by decide) (by decide)⟩

/-- C7: the validator is a pure transformation: equal filter-sequence inputs
give equal results, for the validation step and the whole query construction
(the embedded functions read and write no state besides their input and
output). -/
theorem c7_pure_transformation (fs gs : List Filter) (h : fs = gs) :
    formatFilters fs = formatFilters gs ∧ getQuery fs = getQuery gs := by
  subst h
  exact ⟨rfl, rfl⟩

theorem c7_witness :
    formatFilters [Filter.mk "TOPIC" "NE" "Ruby"] =
      formatFilters [Filter.mk "TOPIC" "NE" "Ruby"] ∧
    getQuery [Filter.mk "TOPIC" "NE" "Ruby"] =
      getQuery [Filter.mk "TOPIC" "NE" "Ruby"] :=
  c7_pure_transformation _ _ rfl

/-- C8: when every filter carrying a non-`"="` operator targets the same
mapped field `g`, validation succeeds — even with several distinct
non-`"="` operators on `g` — and `g` is the designated inequality field. -/
theorem c8_shared_inequality_field (fs : List Filter) (g : String)
    (hv : ∀ f ∈ fs, validTok f)
    (hsame : ∀ f ∈ fs, mOp f ≠ "=" → mField f = g)
    (f0 : Filter) (hf0 : f0 ∈ fs) (hop0 : mOp f0 ≠ "=") :
    formatFilters fs = Except.ok (some g, fs.map fmtFilter) := by
  have hsome : (fs.find? isIneq).isSome :=
    List.find?_isSome.mpr ⟨f0, hf0, by simp [isIneq, hop0]⟩
  obtain ⟨f1, hf1⟩ := Option.isSome_iff_exists.mp hsome
  have hf1mem : f1 ∈ fs := List.mem_of_find?_eq_some hf1
  have hf1op : mOp f1 ≠ "=" := by
    have := List.find?_some hf1
    simpa [isIneq] using this
  have hfld1 : mField f1 = g := hsame f1 hf1mem hf1op
  have ha : ¬ (fs.any (conflictsWith (mField f1)) = true) := by
    rw [Bool.not_eq_true, List.any_eq_false]
    intro x hx
    by_cases hx2 : mOp x = "="
    · simp [conflictsWith, isIneq, hx2]
    · simp [conflictsWith, isIneq, hx2, hsame x hx hx2, hfld1]
  rw [formatFilters_find_some_ok fs hv f1 hf1 ha, hfld1]

theorem c8_witness :
    (∀ f ∈ [Filter.mk "MAX_ATTENDEES" "GT" "5", Filter.mk "MAX_ATTENDEES" "LT" "50"],
      validTok f) ∧
    (∀ f ∈ [Filter.mk "MAX_ATTENDEES" "GT" "5", Filter.mk "MAX_ATTENDEES" "LT" "50"],
      mOp f ≠ "=" → mField f = "maxAttendees") ∧
    Filter.mk "MAX_ATTENDEES" "GT" "5" ∈
      [Filter.mk "MAX_ATTENDEES" "GT" "5", Filter.mk "MAX_ATTENDEES" "LT" "50"] ∧
    mOp (Filter.mk "MAX_ATTENDEES" "GT" "5") ≠ "=" ∧
    formatFilters [Filter.mk "MAX_ATTENDEES" "GT" "5", Filter.mk "MAX_ATTENDEES" "LT" "50"] =
      Except.ok (some "maxAttendees",
        [Filter.mk "MAX_ATTENDEES" "GT" "5", Filter.mk "MAX_ATTENDEES" "LT" "50"].map
          fmtFilter) :=
  ⟨by decide, by decide, by decide, by decide,
    c8_shared_inequality_field _ "maxAttendees" (by decide) (by decide)
      (Filter.mk "MAX_ATTENDEES" "GT" "5") (by decide) (by decide)⟩

theorem exceptMap_error_iff {α β : Type} (g : α → β) (x : Except QueryError α)
    (e : QueryError) : x.map g = Except.error e ↔ x = Except.error e := by
  cases x <;> simp [Except.map]

theorem getQuery_of_formatFilters_ok (fs : List Filter) (i : Option String)
    (fmtd : List FormattedFilter) (hfmt : formatFilters fs = Except.ok (i, fmtd)) :
    getQuery fs = (coerceValues fmtd).map
      (fun nodes => Query.mk
        (match i with
         | none => ["name"]
         | some fld => [fld, "name"]) nodes) := by
  unfold getQuery
  rw [hfmt]

theorem getQuery_of_formatFilters_error (fs : List Filter) (e : QueryError)
    (h : formatFilters fs = Except.error e) : getQuery fs = Except.error e := by
  unfold getQuery
  rw [h]

theorem coerceValues_error_of_bad (l : List FormattedFilter) (f : FormattedFilter)
    (hf : f ∈ l) (hnum : f.field = "month" ∨ f.field = "maxAttendees")
    (hbad : pyInt f.value = none) :
    coerceValues l = Except.error QueryError.valueError := by
  induction l with
  | nil => cases hf
  | cons g rest ih =>
    rcases List.mem_cons.mp hf with rfl | hrest
    · simp only [coerceValues, if_pos hnum, hbad]
    · by_cases hg : g.field = "month" ∨ g.field = "maxAttendees"
      · simp only [coerceValues, if_pos hg]
        cases hpg : pyInt g.value with
        | none => rfl
        | some n => rw [ih hrest]; rfl
      · simp only [coerceValues, if_neg hg]
        rw [ih hrest]
        rfl

theorem coerceValues_ok_eq (l : List FormattedFilter) (nodes : List FilterNode)
    (h : coerceValues l = Except.ok nodes) : nodes = l.map coerceFilter := by
  induction l generalizing nodes with
  | nil =>
    simp only [coerceValues] at h
    cases h
    rfl
  | cons f rest ih =>
    by_cases hnum : f.field = "month" ∨ f.field = "maxAttendees"
    · simp only [coerceValues, if_pos hnum] at h
      cases hp : pyInt f.value with
      | none => rw [hp] at h; cases h
      | some n =>
        rw [hp] at h
        cases hrec : coerceValues rest with
        | error e => rw [hrec] at h; cases h
        | ok ns =>
          rw [hrec] at h
          cases h
          rw [List.map_cons, ← ih ns hrec, coerceFilter, if_pos hnum, hp]
          rfl
    · simp only [coerceValues, if_neg hnum] at h
      cases hrec : coerceValues rest with
      | error e => rw [hrec] at h; cases h
      | ok ns =>
        rw [hrec] at h
        cases h
        rw [List.map_cons, ← ih ns hrec, coerceFilter, if_neg hnum]

/-- C2 counterexample: for the filter `[MONTH EQ "abc"]` the operation fails
with the uncaught `ValueError` of `int()`, not with the invalid-filter
`BadRequestException` used for unknown tokens. -/
theorem c2_counterexample :
    getQuery [Filter.mk "MONTH" "EQ" "abc"] = Except.error QueryError.valueError ∧
    getQuery [Filter.mk "MONTH" "EQ" "abc"] ≠ Except.error QueryError.invalidFilter :=
  ⟨by decide, by decide⟩

/-- C2 (amended): for every filter sequence that passes validation and
contains a filter on `month` or `maxAttendees` whose value is not numeric,
the query construction fails — with the uncaught `ValueError` of `int()`,
not with the invalid-filter rejection. -/
theorem c2_numeric_value_error (fs : List Filter) (i : Option String)
    (fmtd : List FormattedFilter) (f : FormattedFilter)
    (hfmt : formatFilters fs = Except.ok (i, fmtd)) (hf : f ∈ fmtd)
    (hnum : f.field = "month" ∨ f.field = "maxAttendees")
    (hbad : pyInt f.value = none) :
    getQuery fs = Except.error QueryError.valueError := by
  rw [getQuery_of_formatFilters_ok fs i fmtd hfmt,
    coerceValues_error_of_bad fmtd f hf hnum hbad]
  rfl

theorem c2_witness :
    formatFilters [Filter.mk "MAX_ATTENDEES" "LT" "many"] =
      Except.ok (some "maxAttendees", [FormattedFilter.mk "maxAttendees" "<" "many"]) ∧
    FormattedFilter.mk "maxAttendees" "<" "many" ∈
      [FormattedFilter.mk "maxAttendees" "<" "many"] ∧
    pyInt "many" = none ∧
    getQuery [Filter.mk "MAX_ATTENDEES" "LT" "many"] =
      Except.error QueryError.valueError :=
  ⟨by decide, by decide, by decide,
    c2_numeric_value_error [Filter.mk "MAX_ATTENDEES" "LT" "many"]
      (some "maxAttendees") [FormattedFilter.mk "maxAttendees" "<" "many"]
      (FormattedFilter.mk "maxAttendees" "<" "many") (by decide) (by decide)
      (Or.inr rfl) (by decide)⟩

/-- C3: whenever `_get_query` produces a query from a valid-token filter
sequence, the sort-key list is the designated inequality field (the mapped
field of the first non-equality filter) followed by `name`, or just `name`
when every filter is an equality; and the predicate list is exactly the
input filters — mapped field, mapped operator and (coerced) value — as
conjunctive `FilterNode`s in input order. -/
theorem c3_sort_keys_and_predicates (fs : List Filter) (q : Query)
    (hv : ∀ f ∈ fs, validTok f) (h : getQuery fs = Except.ok q) :
    q.orders = (match (fs.find? isIneq).map mField with
      | none => ["name"]
      | some g => [g, "name"]) ∧
    q.nodes = fs.map (fun f => coerceFilter (fmtFilter f)) := by
  cases hfind : fs.find? isIneq with
  | none =>
    have hfmt := formatFilters_find_none fs hv hfind
    rw [getQuery_of_formatFilters_ok fs none (fs.map fmtFilter) hfmt] at h
    cases hcv : coerceValues (fs.map fmtFilter) with
    | error e => rw [hcv] at h; cases h
    | ok nodes =>
      rw [hcv] at h
      simp only [Except.map, Except.ok.injEq] at h
      subst h
      refine ⟨rfl, ?_⟩
      rw [show (Query.mk ["name"] nodes).nodes = nodes from rfl,
        coerceValues_ok_eq _ nodes hcv, List.map_map]
      rfl
  | some f0 =>
    by_cases ha : fs.any (conflictsWith (mField f0))
    · have hfmt := formatFilters_find_some_conflict fs hv f0 hfind ha
      rw [getQuery_of_formatFilters_error fs _ hfmt] at h
      cases h
    · have hfmt := formatFilters_find_some_ok fs hv f0 hfind ha
      rw [getQuery_of_formatFilters_ok fs (some (mField f0)) (fs.map fmtFilter) hfmt] at h
      cases hcv : coerceValues (fs.map fmtFilter) with
      | error e => rw [hcv] at h; cases h
      | ok nodes =>
        rw [hcv] at h
        simp only [Except.map, Except.ok.injEq] at h
        subst h
        refine ⟨rfl, ?_⟩
        rw [show (Query.mk [mField f0, "name"] nodes).nodes = nodes from rfl,
          coerceValues_ok_eq _ nodes hcv, List.map_map]
        rfl

theorem c3_witness :
    (∀ f ∈ [Filter.mk "MONTH" "GT" "3"], validTok f) ∧
    getQuery [Filter.mk "MONTH" "GT" "3"] =
      Except.ok (Query.mk ["month", "name"]
        [FilterNode.mk "month" ">" (FilterValue.int 3)]) ∧
    ((Query.mk ["month", "name"]
        [FilterNode.mk "month" ">" (FilterValue.int 3)]).orders =
      (match ([Filter.mk "MONTH" "GT" "3"].find? isIneq).map mField with
        | none => ["name"]
        | some g => [g, "name"]) ∧
     (Query.mk ["month", "name"]
        [FilterNode.mk "month" ">" (FilterValue.int 3)]).nodes =
       [Filter.mk "MONTH" "GT" "3"].map (fun f => coerceFilter (fmtFilter f))) :=
  ⟨by decide, by decide,
    c3_sort_keys_and_predicates [Filter.mk "MONTH" "GT" "3"]
      (Query.mk ["month", "name"] [FilterNode.mk "month" ">" (FilterValue.int 3)])
      (by decide) (by decide)⟩

theorem formatFiltersFrom_ne_valueError (st : Option String) (fs : List Filter) :
    formatFiltersFrom st fs ≠ Except.error QueryError.valueError := by
  induction fs generalizing st with
  | nil => intro h; cases h
  | cons f rest ih =>
    intro h
    cases hF : FIELDS f.field with
    | none =>
      rw [formatFiltersFrom_cons_invalid st f rest (Or.inl hF)] at h
      cases h
    | some fld =>
      cases hO : OPERATORS f.operator with
      | none =>
        rw [formatFiltersFrom_cons_invalid st f rest (Or.inr hO)] at h
        cases h
      | some op =>
        have hvf : validTok f := ⟨by rw [hF]; rfl, by rw [hO]; rfl⟩
        by_cases hop : mOp f = "="
        · rw [formatFiltersFrom_cons_eqop st f rest hvf hop, exceptMap_error_iff] at h
          exact ih st h
        · cases st with
          | none =>
            rw [formatFiltersFrom_cons_ineq_none f rest hvf hop,
              exceptMap_error_iff] at h
            exact ih (some (mField f)) h
          | some g =>
            by_cases hg : g = mField f
            · rw [formatFiltersFrom_cons_ineq_same g f rest hvf hop hg,
                exceptMap_error_iff] at h
              exact ih (some (mField f)) h
            · rw [formatFiltersFrom_cons_ineq_diff g f rest hvf hop hg] at h
              cases h

theorem formatFiltersFrom_error_kinds (st : Option String) (fs : List Filter)
    (e : QueryError) (h : formatFiltersFrom st fs = Except.error e) :
    e = QueryError.invalidFilter ∨ e = QueryError.multipleInequality := by
  cases e with
  | invalidFilter => exact Or.inl rfl
  | multipleInequality => exact Or.inr rfl
  | valueError => exact absurd h (formatFiltersFrom_ne_valueError st fs)

/-- Appending a bad-token filter after `pre`: the whole run still fails with
the multiple-inequality rejection when `pre` alone already does, and fails
with the invalid-filter rejection otherwise. -/
theorem formatFiltersFrom_append_invalid (st : Option String) (pre : List Filter)
    (f : Filter) (post : List Filter)
    (hbad : FIELDS f.field = none ∨ OPERATORS f.operator = none) :
    (formatFiltersFrom st pre = Except.error QueryError.multipleInequality →
      formatFiltersFrom st (pre ++ f :: post) =
        Except.error QueryError.multipleInequality) ∧
    (formatFiltersFrom st pre ≠ Except.error QueryError.multipleInequality →
      formatFiltersFrom st (pre ++ f :: post) =
        Except.error QueryError.invalidFilter) := by
  induction pre generalizing st with
  | nil =>
    constructor
    · intro h; cases h
    · intro _
      rw [List.nil_append]
      exact formatFiltersFrom_cons_invalid st f post hbad
  | cons p pre ih =>
    cases hF : FIELDS p.field with
    | none =>
      rw [List.cons_append, formatFiltersFrom_cons_invalid st p (pre ++ f :: post) (Or.inl hF),
        formatFiltersFrom_cons_invalid st p pre (Or.inl hF)]
      exact ⟨fun h => absurd h (by simp), fun _ => rfl⟩
    | some fld =>
      cases hO : OPERATORS p.operator with
      | none =>
        rw [List.cons_append, formatFiltersFrom_cons_invalid st p (pre ++ f :: post) (Or.inr hO),
          formatFiltersFrom_cons_invalid st p pre (Or.inr hO)]
        exact ⟨fun h => absurd h (by simp), fun _ => rfl⟩
      | some op =>
        have hvp : validTok p := ⟨by rw [hF]; rfl, by rw [hO]; rfl⟩
        rw [List.cons_append]
        by_cases hop : mOp p = "="
        · rw [formatFiltersFrom_cons_eqop st p (pre ++ f :: post) hvp hop,
            formatFiltersFrom_cons_eqop st p pre hvp hop]
          constructor
          · intro h
            rw [exceptMap_error_iff] at h
            rw [exceptMap_error_iff]
            exact (ih st).1 h
          · intro h
            rw [ne_eq, exceptMap_error_iff] at h
            rw [exceptMap_error_iff]
            exact (ih st).2 h
        · cases st with
          | none =>
            rw [formatFiltersFrom_cons_ineq_none p (pre ++ f :: post) hvp hop,
              formatFiltersFrom_cons_ineq_none p pre hvp hop]
            constructor
            · intro h
              rw [exceptMap_error_iff] at h
              rw [exceptMap_error_iff]
              exact (ih (some (mField p))).1 h
            · intro h
              rw [ne_eq, exceptMap_error_iff] at h
              rw [exceptMap_error_iff]
              exact (ih (some (mField p))).2 h
          | some g =>
            by_cases hg : g = mField p
            · rw [formatFiltersFrom_cons_ineq_same g p (pre ++ f :: post) hvp hop hg,
                formatFiltersFrom_cons_ineq_same g p pre hvp hop hg]
              constructor
              · intro h
                rw [exceptMap_error_iff] at h
                rw [exceptMap_error_iff]
                exact (ih (some (mField p))).1 h
              · intro h
                rw [ne_eq, exceptMap_error_iff] at h
                rw [exceptMap_error_iff]
                exact (ih (some (mField p))).2 h
            · rw [formatFiltersFrom_cons_ineq_diff g p (pre ++ f :: post) hvp hop hg,
                formatFiltersFrom_cons_ineq_diff g p pre hvp hop hg]
              exact ⟨fun _ => rfl, fun h => absurd rfl h⟩

/-- C4 (amended): the field and operator tokens are mapped exactly through
the two fixed enumerations, any other token mapping to a `KeyError`; a
filter with an unknown token always makes validation fail, with the
invalid-filter rejection unless the filters before it already raise the
multiple-inequality rejection, in which case that error is raised first. -/
theorem c4_token_enumerations :
    (FIELDS "CITY" = some "city" ∧ FIELDS "TOPIC" = some "topics" ∧
     FIELDS "MONTH" = some "month" ∧ FIELDS "MAX_ATTENDEES" = some "maxAttendees") ∧
    (∀ s : String, s ≠ "CITY" → s ≠ "TOPIC" → s ≠ "MONTH" → s ≠ "MAX_ATTENDEES" →
      FIELDS s = none) ∧
    (OPERATORS "EQ" = some "=" ∧ OPERATORS "GT" = some ">" ∧
     OPERATORS "GTEQ" = some ">=" ∧ OPERATORS "LT" = some "<" ∧
     OPERATORS "LTEQ" = some "<=" ∧ OPERATORS "NE" = some "!=") ∧
    (∀ s : String, s ≠ "EQ" → s ≠ "GT" → s ≠ "GTEQ" → s ≠ "LT" → s ≠ "LTEQ" →
      s ≠ "NE" → OPERATORS s = none) ∧
    (∀ (pre post : List Filter) (f : Filter),
      FIELDS f.field = none ∨ OPERATORS f.operator = none →
      (formatFilters (pre ++ f :: post) = Except.error QueryError.invalidFilter ∨
       formatFilters (pre ++ f :: post) = Except.error QueryError.multipleInequality) ∧
      (formatFilters pre ≠ Except.error QueryError.multipleInequality →
       formatFilters (pre ++ f :: post) = Except.error QueryError.invalidFilter)) := by
  refine ⟨⟨rfl, rfl, rfl, rfl⟩, ?_, ⟨rfl, rfl, rfl, rfl, rfl, rfl⟩, ?_, ?_⟩
  · intro s h1 h2 h3 h4
    simp [FIELDS, h1, h2, h3, h4]
  · intro s h1 h2 h3 h4 h5 h6
    simp [OPERATORS, h1, h2, h3, h4, h5, h6]
  · intro pre post f hbad
    have happ := formatFiltersFrom_append_invalid none pre f post hbad
    constructor
    · by_cases hpre : formatFilters pre = Except.error QueryError.multipleInequality
      · exact Or.inr (happ.1 hpre)
      · exact Or.inl (happ.2 hpre)
    · exact happ.2

/-- C4 counterexample: the sequence `[CITY GT "a", TOPIC GT "b",
SPEAKER EQ "c"]` contains the unknown field token `SPEAKER`, yet validation
fails with the multiple-inequality rejection (raised at the second filter,
before the invalid token is scanned), not with the invalid-filter one. -/
theorem c4_counterexample :
    FIELDS "SPEAKER" = none ∧
    formatFilters [Filter.mk "CITY" "GT" "a", Filter.mk "TOPIC" "GT" "b",
      Filter.mk "SPEAKER" "EQ" "c"] = Except.error QueryError.multipleInequality ∧
    formatFilters [Filter.mk "CITY" "GT" "a", Filter.mk "TOPIC" "GT" "b",
      Filter.mk "SPEAKER" "EQ" "c"] ≠ Except.error QueryError.invalidFilter :=
  ⟨by decide, by decide, by decide⟩

/-- C9: registration preserves non-negativity of the seat counter.
Registering raises `ConflictException` when the user is already registered
or no seat is available (the aborted transaction commits no change);
otherwise it appends the conference key and takes exactly one seat.
Unregistering either restores exactly one seat or changes nothing.  Hence
`seatsAvailable >= 0` is an invariant of both operations. -/
theorem c9_registration_seats_invariant (p : Profile) (c : Conference)
    (w : String) (hseats : 0 ≤ c.seatsAvailable) :
    (w ∈ p.conferenceKeysToAttend ∨ c.seatsAvailable ≤ 0 →
      conferenceRegistration p (some c) w true = Except.error ApiError.conflict) ∧
    (w ∉ p.conferenceKeysToAttend → 0 < c.seatsAvailable →
      conferenceRegistration p (some c) w true =
        Except.ok (Profile.mk (p.conferenceKeysToAttend ++ [w]) p.sessionsKeysWishlist,
          Conference.mk (c.seatsAvailable - 1), true)) ∧
    (∀ (p' : Profile) (c' : Conference) (b : Bool),
      conferenceRegistration p (some c) w false = Except.ok (p', c', b) →
      c'.seatsAvailable = c.seatsAvailable + 1 ∨ (p' = p ∧ c' = c)) ∧
    (∀ (r : Bool) (p' : Profile) (c' : Conference) (b : Bool),
      conferenceRegistration p (some c) w r = Except.ok (p', c', b) →
      0 ≤ c'.seatsAvailable) := by
  refine ⟨?_, ?_, ?_, ?_⟩
  · rintro (hmem | hle)
    · simp [conferenceRegistration, hmem]
    · by_cases hmem : w ∈ p.conferenceKeysToAttend
      · simp [conferenceRegistration, hmem]
      · simp [conferenceRegistration, hmem, hle]
  · intro hmem hpos
    have hle : ¬ c.seatsAvailable ≤ 0 := by omega
    simp [conferenceRegistration, hmem, hle]
  · intro p' c' b h
    by_cases hmem : w ∈ p.conferenceKeysToAttend
    · rw [show conferenceRegistration p (some c) w false =
          Except.ok (Profile.mk (p.conferenceKeysToAttend.erase w) p.sessionsKeysWishlist,
            Conference.mk (c.seatsAvailable + 1), true) from by
          simp [conferenceRegistration, hmem]] at h
      cases h
      exact Or.inl rfl
    · rw [show conferenceRegistration p (some c) w false = Except.ok (p, c, false) from by
          simp [conferenceRegistration, hmem]] at h
      cases h
      exact Or.inr ⟨rfl, rfl⟩
  · intro r p' c' b h
    cases r with
    | false =>
      by_cases hmem : w ∈ p.conferenceKeysToAttend
      · rw [show conferenceRegistration p (some c) w false =
            Except.ok (Profile.mk (p.conferenceKeysToAttend.erase w) p.sessionsKeysWishlist,
              Conference.mk (c.seatsAvailable + 1), true) from by
            simp [conferenceRegistration, hmem]] at h
        cases h
        show 0 ≤ c.seatsAvailable + 1
        omega
      · rw [show conferenceRegistration p (some c) w false = Except.ok (p, c, false) from by
            simp [conferenceRegistration, hmem]] at h
        cases h
        exact hseats
    | true =>
      by_cases hmem : w ∈ p.conferenceKeysToAttend
      · rw [show conferenceRegistration p (some c) w true =
            Except.error ApiError.conflict from by
            simp [conferenceRegistration, hmem]] at h
        cases h
      · by_cases hle : c.seatsAvailable ≤ 0
        · rw [show conferenceRegistration p (some c) w true =
              Except.error ApiError.conflict from by
              simp [conferenceRegistration, hmem, hle]] at h
          cases h
        · rw [show conferenceRegistration p (some c) w true =
              Except.ok (Profile.mk (p.conferenceKeysToAttend ++ [w]) p.sessionsKeysWishlist,
                Conference.mk (c.seatsAvailable - 1), true) from by
              simp [conferenceRegistration, hmem, hle]] at h
          cases h
          show 0 ≤ c.seatsAvailable - 1
          omega

theorem c9_witness :
    ("K" ∈ (Profile.mk [] []).conferenceKeysToAttend ∨
        (Conference.mk 2).seatsAvailable ≤ 0 →
      conferenceRegistration (Profile.mk [] []) (some (Conference.mk 2)) "K" true =
        Except.error ApiError.conflict) ∧
    ("K" ∉ (Profile.mk [] []).conferenceKeysToAttend →
      0 < (Conference.mk 2).seatsAvailable →
      conferenceRegistration (Profile.mk [] []) (some (Conference.mk 2)) "K" true =
        Except.ok (Profile.mk ((Profile.mk [] []).conferenceKeysToAttend ++ ["K"])
            (Profile.mk [] []).sessionsKeysWishlist,
          Conference.mk ((Conference.mk 2).seatsAvailable - 1), true)) ∧
    (∀ (p' : Profile) (c' : Conference) (b : Bool),
      conferenceRegistration (Profile.mk [] []) (some (Conference.mk 2)) "K" false =
        Except.ok (p', c', b) →
      c'.seatsAvailable = (Conference.mk 2).seatsAvailable + 1 ∨
        (p' = Profile.mk [] [] ∧ c' = Conference.mk 2)) ∧
    (∀ (r : Bool) (p' : Profile) (c' : Conference) (b : Bool),
      conferenceRegistration (Profile.mk [] []) (some (Conference.mk 2)) "K" r =
        Except.ok (p', c', b) →
      0 ≤ c'.seatsAvailable) :=
  c9_registration_seats_invariant (Profile.mk [] []) (Conference.mk 2) "K" (by decide)

/-- C10: the wishlist stays duplicate-free: adding a key already present
raises `ConflictException` with the profile unchanged; deleting an absent
key returns `False` without modifying the profile; deleting a present key
removes one occurrence and returns `True`; and both operations map a
`Nodup` wishlist to a `Nodup` wishlist. -/
theorem c10_wishlist_nodup (sessions : List String) (p : Profile) (k : String)
    (hnd : p.sessionsKeysWishlist.Nodup) :
    (k ∈ sessions → k ∈ p.sessionsKeysWishlist →
      addSessionToWishlist sessions p k = Except.error ApiError.conflict) ∧
    (k ∈ sessions → k ∉ p.sessionsKeysWishlist →
      deleteSessionInWishlist sessions p k = Except.ok (p, false)) ∧
    (k ∈ sessions → k ∈ p.sessionsKeysWishlist →
      deleteSessionInWishlist sessions p k =
        Except.ok (Profile.mk p.conferenceKeysToAttend
          (p.sessionsKeysWishlist.erase k), true)) ∧
    (∀ (p' : Profile) (b : Bool),
      addSessionToWishlist sessions p k = Except.ok (p', b) →
      p'.sessionsKeysWishlist.Nodup) ∧
    (∀ (p' : Profile) (b : Bool),
      deleteSessionInWishlist sessions p k = Except.ok (p', b) →
      p'.sessionsKeysWishlist.Nodup) := by
  refine ⟨?_, ?_, ?_, ?_, ?_⟩
  · intro hs hmem
    simp [addSessionToWishlist, hs, hmem]
  · intro hs hmem
    simp [deleteSessionInWishlist, hs, hmem]
  · intro hs hmem
    simp [deleteSessionInWishlist, hs, hmem]
  · intro p' b h
    by_cases hs : k ∈ sessions
    · by_cases hmem : k ∈ p.sessionsKeysWishlist
      · rw [show addSessionToWishlist sessions p k = Except.error ApiError.conflict from by
            simp [addSessionToWishlist, hs, hmem]] at h
        cases h
      · rw [show addSessionToWishlist sessions p k =
            Except.ok (Profile.mk p.conferenceKeysToAttend
              (p.sessionsKeysWishlist ++ [k]), true) from by
            simp [addSessionToWishlist, hs, hmem]] at h
        cases h
        show (p.sessionsKeysWishlist ++ [k]).Nodup
        simp [List.nodup_append, hnd, hmem]
    · rw [show addSessionToWishlist sessions p k = Except.error ApiError.notFound from by
          simp [addSessionToWishlist, hs]] at h
      cases h
  · intro p' b h
    by_cases hs : k ∈ sessions
    · by_cases hmem : k ∈ p.sessionsKeysWishlist
      · rw [show deleteSessionInWishlist sessions p k =
            Except.ok (Profile.mk p.conferenceKeysToAttend
              (p.sessionsKeysWishlist.erase k), true) from by
            simp [deleteSessionInWishlist, hs, hmem]] at h
        cases h
        exact hnd.erase k
      · rw [show deleteSessionInWishlist sessions p k = Except.ok (p, false) from by
            simp [deleteSessionInWishlist, hs, hmem]] at h
        cases h
        exact hnd
    · rw [show deleteSessionInWishlist sessions p k =
          Except.error ApiError.notFound from by
          simp [deleteSessionInWishlist, hs]] at h
      cases h

theorem c10_witness :
    ("s1" ∈ ["s1"] → "s1" ∈ (Profile.mk ["c1"] ["s1"]).sessionsKeysWishlist →
      addSessionToWishlist ["s1"] (Profile.mk ["c1"] ["s1"]) "s1" =
        Except.error ApiError.conflict) ∧
    ("s1" ∈ ["s1"] → "s1" ∉ (Profile.mk ["c1"] ["s1"]).sessionsKeysWishlist →
      deleteSessionInWishlist ["s1"] (Profile.mk ["c1"] ["s1"]) "s1" =
        Except.ok (Profile.mk ["c1"] ["s1"], false)) ∧
    ("s1" ∈ ["s1"] → "s1" ∈ (Profile.mk ["c1"] ["s1"]).sessionsKeysWishlist →
      deleteSessionInWishlist ["s1"] (Profile.mk ["c1"] ["s1"]) "s1" =
        Except.ok (Profile.mk (Profile.mk ["c1"] ["s1"]).conferenceKeysToAttend
          ((Profile.mk ["c1"] ["s1"]).sessionsKeysWishlist.erase "s1"), true)) ∧
    (∀ (p' : Profile) (b : Bool),
      addSessionToWishlist ["s1"] (Profile.mk ["c1"] ["s1"]) "s1" =
        Except.ok (p', b) →
      p'.sessionsKeysWishlist.Nodup) ∧
    (∀ (p' : Profile) (b : Bool),
      deleteSessionInWishlist ["s1"] (Profile.mk ["c1"] ["s1"]) "s1" =
        Except.ok (p', b) →
      p'.sessionsKeysWishlist.Nodup) :=
  c10_wishlist_nodup ["s1"] (Profile.mk ["c1"] ["s1"]) "s1" (by decide)

end ConferenceCentral
